import Mathlib

/-!
Verification of the state reconciliation engine of `gh_pr_menu.py`.

The Python program polls GitHub for open pull requests, diffs the fetched
list against persisted state (`seen_urls`, `comment_counts`,
`review_states`, `ci_states`), emits desktop notifications for
notification-worthy transitions, and rewrites the persisted state.

This file shallowly embeds the pure core of that program:

* `get_ci_state` — the CI aggregate over the `statusCheckRollup` list;
* `get_comment_count` — the comment count of a PR;
* `do_fetch` — the reconciliation step `GitHubPRApp._do_fetch`, modelled as
  a pure function from the in-memory application state and the freshly
  fetched PR list to the updated state plus the list of emitted
  notification events (notifications are emitted in program order);
* `save_state_ops` — the sequence of file-system operations performed by
  `save_state`, over a small file-system model, used to analyse the
  atomicity of snapshot persistence.

Dictionaries built per cycle (`new_comment_counts`, `new_review_states`,
`new_ci_states`) are modelled as association lists keyed by PR URL; the
fetch layer guarantees each URL occurs at most once per cycle, which
appears below as `(prs.map PR.url).Nodup` hypotheses. Python sets are
modelled as `Finset String`.
-/

/-- One element of the `statusCheckRollup` list of a PR. The Python code
dispatches on `__typename`: `CheckRun` carries `status` and `conclusion`,
`StatusContext` carries `state`, and any other typename is ignored. -/
inductive Check where
  | checkRun (status : String) (conclusion : String)
  | statusContext (state : String)
  | other (typename : String)
deriving DecidableEq, Repr

/-- A fetched pull request record (the fields of the `--json` field list
that the reconciliation engine reads). `comments` is the comment list; only
its length is used. -/
structure PR where
  url : String
  repo : String
  number : Nat
  title : String
  author : String
  isDraft : Bool
  reviewDecision : String
  statusCheckRollup : List Check
  comments : List String
deriving DecidableEq, Repr

/-- `get_comment_count`: `len(pr.get("comments", []))`. -/
def get_comment_count (pr : PR) : Nat :=
  pr.comments.length

/-- The loop of `get_ci_state`: scan the checks carrying the running
verdict `acc` (initially `"passing"`); an incomplete check-run or a
`PENDING` status-context downgrades the running verdict to `"pending"` and
scanning continues; a completed check-run with a conclusion outside
SUCCESS/NEUTRAL/SKIPPED, or a status-context in a state other than
SUCCESS (after the PENDING test), returns `"failing"` immediately. -/
def ciStateAux : List Check → String → String
  | [], acc => acc
  | c :: rest, acc =>
    match c with
    | Check.checkRun status conclusion =>
      if status ≠ "COMPLETED" then ciStateAux rest "pending"
      else if conclusion ≠ "SUCCESS" ∧ conclusion ≠ "NEUTRAL" ∧ conclusion ≠ "SKIPPED" then "failing"
      else ciStateAux rest acc
    | Check.statusContext state =>
      if state = "PENDING" then ciStateAux rest "pending"
      else if state ≠ "SUCCESS" then "failing"
      else ciStateAux rest acc
    | Check.other _ => ciStateAux rest acc

/-- `get_ci_state`: aggregate `passing`, `pending` or `failing` over the
`statusCheckRollup` field, starting from `passing` (an empty check list
therefore yields `passing`). -/
def get_ci_state (pr : PR) : String :=
  ciStateAux pr.statusCheckRollup "passing"

/-- A check that makes `get_ci_state` return `"failing"` when scanned: a
completed check-run with conclusion outside SUCCESS/NEUTRAL/SKIPPED, or a
status-context in a state that is neither PENDING nor SUCCESS. -/
def isFailingCheck : Check → Bool
  | Check.checkRun status conclusion =>
    status = "COMPLETED" ∧ conclusion ≠ "SUCCESS" ∧ conclusion ≠ "NEUTRAL" ∧ conclusion ≠ "SKIPPED"
  | Check.statusContext state => state ≠ "PENDING" ∧ state ≠ "SUCCESS"
  | Check.other _ => false

/-- A check that downgrades the running verdict to `"pending"`: a
check-run whose status is not COMPLETED, or a status-context in state
PENDING. -/
def isPendingCheck : Check → Bool
  | Check.checkRun status _ => status ≠ "COMPLETED"
  | Check.statusContext state => state = "PENDING"
  | Check.other _ => false

/-- A notification event, as issued by `rumps.notification` calls inside
`_do_fetch`, reduced to its kind, target PR URL and (for comments) the
delta. -/
inductive Event where
  | NewPR (url : String)
  | ReviewApproved (url : String)
  | ReviewChangesRequested (url : String)
  | CIPassing (url : String)
  | CIFailing (url : String)
  | NewComments (url : String) (delta : Nat)
deriving DecidableEq, Repr

/-- The target PR URL of an event. -/
def Event.url : Event → String
  | Event.NewPR u => u
  | Event.ReviewApproved u => u
  | Event.ReviewChangesRequested u => u
  | Event.CIPassing u => u
  | Event.CIFailing u => u
  | Event.NewComments u _ => u

/-- Whether an event is a `NewComments` event. -/
def Event.isNewComments : Event → Bool
  | Event.NewComments _ _ => true
  | _ => false

/-- Whether an event is a `NewComments` event targeting the URL `u`. -/
def Event.isNewCommentsFor (u : String) : Event → Bool
  | Event.NewComments v _ => v == u
  | _ => false

/-- The mutable state of `GitHubPRApp` read and written by `_do_fetch`:
the four persisted mappings (`_seen_urls`, `_comment_counts`,
`_review_states`, `_ci_states`), the transient badge flag `has_unseen`,
the baseline flag `_first_fetch`, and the two transient UnseenMarker sets
(`_new_pr_urls`, `_new_comment_urls`). -/
structure AppState where
  seen_urls : Finset String
  comment_counts : List (String × Nat)
  review_states : List (String × String)
  ci_states : List (String × String)
  has_unseen : Bool
  first_fetch : Bool
  new_pr_urls : Finset String
  new_comment_urls : Finset String
deriving DecidableEq

/-- `new_pr_urls = {pr["url"] for pr in new_prs}`. -/
def urlsOf (prs : List PR) : Finset String :=
  (prs.map PR.url).toFinset

/-- `new_comment_counts = {pr["url"]: get_comment_count(pr) for pr in new_prs}`. -/
def commentCountsOf (prs : List PR) : List (String × Nat) :=
  prs.map (fun pr => (pr.url, get_comment_count pr))

/-- `new_review_states = {pr["url"]: pr.get("reviewDecision", "") for pr in new_prs}`. -/
def reviewStatesOf (prs : List PR) : List (String × String) :=
  prs.map (fun pr => (pr.url, pr.reviewDecision))

/-- `new_ci_states = {pr["url"]: get_ci_state(pr) for pr in new_prs}`. -/
def ciStatesOf (prs : List PR) : List (String × String) :=
  prs.map (fun pr => (pr.url, get_ci_state pr))

/-- The review-decision notification of `_do_fetch` for one PR (URL `u`):
`if new_review != old_review and new_review:` with an event only for the
new values APPROVED and CHANGES_REQUESTED. -/
def reviewEventsFor (old_review new_review : String) (u : String) : List Event :=
  if new_review ≠ old_review ∧ new_review ≠ "" then
    if new_review = "APPROVED" then [Event.ReviewApproved u]
    else if new_review = "CHANGES_REQUESTED" then [Event.ReviewChangesRequested u]
    else []
  else []

/-- The CI notification of `_do_fetch` for one PR (URL `u`):
`if new_ci != old_ci and old_ci:` with an event only for the new values
passing and failing. -/
def ciEventsFor (old_ci new_ci : String) (u : String) : List Event :=
  if new_ci ≠ old_ci ∧ old_ci ≠ "" then
    if new_ci = "passing" then [Event.CIPassing u]
    else if new_ci = "failing" then [Event.CIFailing u]
    else []
  else []

/-- The notifications issued for one PR by the first loop of the
steady-state branch of `_do_fetch`: a `NewPR` notification (followed by
`continue`) when the URL is in `added_urls`; otherwise the review-decision
notification followed by the CI notification, each against the stored
mappings with empty-string defaults. -/
def prEvents (review_states ci_states new_review_states new_ci_states : List (String × String))
    (added_urls : Finset String) (pr : PR) : List Event :=
  if pr.url ∈ added_urls then [Event.NewPR pr.url]
  else
    reviewEventsFor ((review_states.lookup pr.url).getD "")
        ((new_review_states.lookup pr.url).getD "") pr.url ++
      ciEventsFor ((ci_states.lookup pr.url).getD "")
        ((new_ci_states.lookup pr.url).getD "") pr.url

/-- Whether the first loop of `_do_fetch` executes `self.has_unseen = True`
for this PR: it does for every added PR, and for every changed non-empty
review decision or changed CI state with non-empty stored value — also
when the change produces no notification. -/
def prUnseen (review_states ci_states new_review_states new_ci_states : List (String × String))
    (added_urls : Finset String) (pr : PR) : Bool :=
  if pr.url ∈ added_urls then true
  else
    let old_review := (review_states.lookup pr.url).getD ""
    let new_review := (new_review_states.lookup pr.url).getD ""
    let old_ci := (ci_states.lookup pr.url).getD ""
    let new_ci := (new_ci_states.lookup pr.url).getD ""
    decide (new_review ≠ old_review ∧ new_review ≠ "") ||
      decide (new_ci ≠ old_ci ∧ old_ci ≠ "")

/-- The notifications issued for one `(url, new_count)` item of
`new_comment_counts` by the comment loop of `_do_fetch`: when the new
count exceeds the stored count (defaulting to 0) and the URL resolves to a
fetched PR, one `NewComments` notification carrying the delta. -/
def commentEvents (comment_counts : List (String × Nat)) (new_prs : List PR)
    (item : String × Nat) : List Event :=
  let old_count := (comment_counts.lookup item.1).getD 0
  if item.2 > old_count then
    match new_prs.find? (fun p => p.url == item.1) with
    | some _ => [Event.NewComments item.1 (item.2 - old_count)]
    | none => []
  else []

/-- Whether the comment loop executes `self.has_unseen = True` (and adds
the URL to `_new_comment_urls`) for this item. -/
def commentUnseen (comment_counts : List (String × Nat)) (new_prs : List PR)
    (item : String × Nat) : Bool :=
  let old_count := (comment_counts.lookup item.1).getD 0
  decide (item.2 > old_count) && (new_prs.find? (fun p => p.url == item.1)).isSome

/-- `GitHubPRApp._do_fetch`, as a pure function from the current
application state and the fetched PR list to the new state and the list of
emitted notifications, in emission order.

On the first fetch the four mappings are replaced by the values of the
current cycle and nothing is emitted. Otherwise the first loop over `new_prs`
emits `NewPR` for URLs in `added_urls = new_pr_urls - self._seen_urls`
(skipping all further checks for them via `continue`) and the review/CI
transition notifications for the rest, and the second loop over
`new_comment_counts` emits `NewComments` for positive deltas; the three
value mappings are then replaced wholesale. In both branches the final
statement `self._seen_urls = (self._seen_urls & new_pr_urls) | new_pr_urls`
runs (in the baseline branch `self._seen_urls` has just been assigned
`new_pr_urls`). `has_unseen` is only ever set to `True` inside the loops,
and the marker sets only grow, so they are expressed as the old value
joined with the per-iteration contributions. -/
def do_fetch (st : AppState) (new_prs : List PR) : AppState × List Event :=
  let new_pr_urls := urlsOf new_prs
  let new_comment_counts := commentCountsOf new_prs
  let new_review_states := reviewStatesOf new_prs
  let new_ci_states := ciStatesOf new_prs
  if st.first_fetch then
    ({ st with
        seen_urls := (new_pr_urls ∩ new_pr_urls) ∪ new_pr_urls,
        comment_counts := new_comment_counts,
        review_states := new_review_states,
        ci_states := new_ci_states,
        first_fetch := false }, [])
  else
    let added_urls := new_pr_urls \ st.seen_urls
    let events1 :=
      new_prs.flatMap (prEvents st.review_states st.ci_states new_review_states new_ci_states added_urls)
    let unseen1 :=
      new_prs.any (prUnseen st.review_states st.ci_states new_review_states new_ci_states added_urls)
    let events2 := new_comment_counts.flatMap (commentEvents st.comment_counts new_prs)
    let unseen2 := new_comment_counts.any (commentUnseen st.comment_counts new_prs)
    ({ st with
        seen_urls := (st.seen_urls ∩ new_pr_urls) ∪ new_pr_urls,
        comment_counts := new_comment_counts,
        review_states := new_review_states,
        ci_states := new_ci_states,
        has_unseen := st.has_unseen || unseen1 || unseen2,
        new_pr_urls := st.new_pr_urls ∪ added_urls,
        new_comment_urls := st.new_comment_urls ∪
          ((new_comment_counts.filter (commentUnseen st.comment_counts new_prs)).map Prod.fst).toFinset },
      events1 ++ events2)

/-- A concrete PR record for instantiating theorems: URL, review decision,
check list and number of comments; the remaining fields are fixed. -/
def mkPR (u : String) (decision : String) (checks : List Check) (ncomments : Nat) : PR :=
  { url := u, repo := "octo/repo", number := 1, title := "Title", author := "octocat",
    isDraft := false, reviewDecision := decision, statusCheckRollup := checks,
    comments := List.replicate ncomments "c" }

/-- A concrete application state for instantiating theorems: the four
persisted mappings and the baseline flag; the badge flag and marker sets
start empty. -/
def mkState (seen : Finset String) (cc : List (String × Nat))
    (rs cs : List (String × String)) (first : Bool) : AppState :=
  { seen_urls := seen, comment_counts := cc, review_states := rs, ci_states := cs,
    has_unseen := false, first_fetch := first, new_pr_urls := ∅, new_comment_urls := ∅ }

/-- A check-run that is still running (downgrades the verdict to pending). -/
def pendingCheck : Check :=
  Check.checkRun "IN_PROGRESS" ""

/-- A completed check-run with conclusion FAILURE (aggregates to failing). -/
def failingCheck : Check :=
  Check.checkRun "COMPLETED" "FAILURE"

/-- A completed check-run with conclusion SUCCESS (leaves the verdict alone). -/
def passingCheck : Check :=
  Check.checkRun "COMPLETED" "SUCCESS"

/-! ### File-system model for `save_state` -/

/-- A file system: contents by path, `none` when the path is absent. -/
def Fs : Type :=
  String → Option String

/-- A file-system operation. `openTruncate` is `open(path, "w")` (the file
is created or truncated to empty); `writeAll` replaces the file content
(the data written by `json.dump`); `renameInto` is an atomic
`os.rename(src, dst)`. -/
inductive FsOp where
  | openTruncate (path : String)
  | writeAll (path : String) (content : String)
  | renameInto (src : String) (dst : String)
deriving DecidableEq, Repr

/-- Effect of one operation on the file system. -/
def applyOp (fs : Fs) : FsOp → Fs
  | FsOp.openTruncate p => fun q => if q = p then some "" else fs q
  | FsOp.writeAll p c => fun q => if q = p then some c else fs q
  | FsOp.renameInto s d => fun q => if q = d then fs s else if q = s then none else fs q

/-- Run a list of operations from left to right. -/
def runOps (fs : Fs) (ops : List FsOp) : Fs :=
  ops.foldl applyOp fs

/-- `STATE_PATH`, the fixed snapshot path. -/
def STATE_PATH : String :=
  "state.json"

/-- Whether an operation is a rename. -/
def FsOp.isRenameInto : FsOp → Bool
  | FsOp.renameInto _ _ => true
  | _ => false

/-- `save_state(state)`: `with open(STATE_PATH, "w") as f: json.dump(state, f, indent=2)` —
the target file is truncated by the open and the serialized snapshot
(`content`) is then written to it directly. No temporary file and no
rename is involved. -/
def save_state_ops (content : String) : List FsOp :=
  [FsOp.openTruncate STATE_PATH, FsOp.writeAll STATE_PATH content]

/-- Modelled from the spec: an operation sequence saves atomically when,
at every interruption point (every prefix of the sequence), the snapshot
path holds either the previously persisted content or the final content —
"a crash mid-write must not corrupt previously-durable state". -/
def atomicReplaceSave (ops : List FsOp) : Prop :=
  ∀ (fs : Fs) (k : Nat),
    runOps fs (ops.take k) STATE_PATH = fs STATE_PATH ∨
    runOps fs (ops.take k) STATE_PATH = runOps fs ops STATE_PATH

/-! ### Helper lemmas about the embedded definitions -/

theorem inter_union_self_eq (s t : Finset String) : (s ∩ t) ∪ t = t :=
  Finset.union_eq_right.2 Finset.inter_subset_right

theorem reviewEventsFor_eq (o n u : String) :
    reviewEventsFor o n u =
      if n = "APPROVED" ∧ n ≠ o then [Event.ReviewApproved u]
      else if n = "CHANGES_REQUESTED" ∧ n ≠ o then [Event.ReviewChangesRequested u]
      else [] := by
  unfold reviewEventsFor
  split_ifs <;> simp_all

theorem ciEventsFor_eq (o n u : String) :
    ciEventsFor o n u =
      if n = "passing" ∧ n ≠ o ∧ o ≠ "" then [Event.CIPassing u]
      else if n = "failing" ∧ n ≠ o ∧ o ≠ "" then [Event.CIFailing u]
      else [] := by
  unfold ciEventsFor
  split_ifs <;> simp_all <;> tauto

theorem commentEvents_eq (cc : List (String × Nat)) (prs : List PR) (item : String × Nat) :
    commentEvents cc prs item =
      if item.2 > (cc.lookup item.1).getD 0 ∧ (prs.find? (fun p => p.url == item.1)).isSome
      then [Event.NewComments item.1 (item.2 - (cc.lookup item.1).getD 0)]
      else [] := by
  unfold commentEvents
  rcases h : prs.find? (fun p => p.url == item.1) with _ | q <;> simp [h]

theorem lookup_mapAssoc_of_mem {α : Type} (f : PR → α) (prs : List PR) (pr : PR)
    (hnd : (prs.map PR.url).Nodup) (hmem : pr ∈ prs) :
    (prs.map (fun p => (p.url, f p))).lookup pr.url = some (f pr) := by
  induction prs with
  | nil => cases hmem
  | cons q rest ih =>
    simp only [List.map_cons, List.nodup_cons] at hnd
    rcases List.mem_cons.1 hmem with h | h
    · subst h; simp [List.lookup]
    · have hne : (pr.url == q.url) = false := by
        refine beq_eq_false_iff_ne.2 ?_
        intro hEq
        exact hnd.1 (hEq ▸ List.mem_map_of_mem PR.url h)
      simp [List.lookup, hne, ih hnd.2 h]

theorem lookup_mapAssoc_of_not_mem {α : Type} (f : PR → α) (prs : List PR) (u : String)
    (hu : u ∉ prs.map PR.url) :
    (prs.map (fun p => (p.url, f p))).lookup u = none := by
  induction prs with
  | nil => rfl
  | cons q rest ih =>
    simp only [List.map_cons, List.mem_cons, not_or] at hu
    have hne : (u == q.url) = false := beq_eq_false_iff_ne.2 hu.1
    simp [List.lookup, hne, ih hu.2]

theorem mem_urlsOf (prs : List PR) (pr : PR) (h : pr ∈ prs) : pr.url ∈ urlsOf prs := by
  simp only [urlsOf, List.mem_toFinset, List.mem_map]
  exact ⟨pr, h, rfl⟩

theorem do_fetch_events (st : AppState) (prs : List PR) (hf : st.first_fetch = false) :
    (do_fetch st prs).2 =
      prs.flatMap (prEvents st.review_states st.ci_states (reviewStatesOf prs) (ciStatesOf prs)
        (urlsOf prs \ st.seen_urls)) ++
      (commentCountsOf prs).flatMap (commentEvents st.comment_counts prs) := by
  simp [do_fetch, hf]

theorem do_fetch_state (st : AppState) (prs : List PR) :
    (do_fetch st prs).1.seen_urls = urlsOf prs ∧
    (do_fetch st prs).1.comment_counts = commentCountsOf prs ∧
    (do_fetch st prs).1.review_states = reviewStatesOf prs ∧
    (do_fetch st prs).1.ci_states = ciStatesOf prs ∧
    (do_fetch st prs).1.first_fetch = false := by
  cases hf : st.first_fetch <;> simp [do_fetch, hf, inter_union_self_eq]

theorem do_fetch_has_unseen (st : AppState) (prs : List PR) (hf : st.first_fetch = false) :
    (do_fetch st prs).1.has_unseen =
      (st.has_unseen ||
        prs.any (prUnseen st.review_states st.ci_states (reviewStatesOf prs) (ciStatesOf prs)
          (urlsOf prs \ st.seen_urls)) ||
        (commentCountsOf prs).any (commentUnseen st.comment_counts prs)) := by
  simp [do_fetch, hf]

theorem do_fetch_new_comment_urls (st : AppState) (prs : List PR) (hf : st.first_fetch = false) :
    (do_fetch st prs).1.new_comment_urls =
      st.new_comment_urls ∪
        (((commentCountsOf prs).filter (commentUnseen st.comment_counts prs)).map Prod.fst).toFinset := by
  simp [do_fetch, hf]

theorem prEvents_newPR_iff (rs cs nrs ncs : List (String × String)) (added : Finset String)
    (q : PR) (u : String) :
    Event.NewPR u ∈ prEvents rs cs nrs ncs added q ↔ (u = q.url ∧ q.url ∈ added) := by
  unfold prEvents
  split_ifs with h
  · simp [h, eq_comm]
  · rw [reviewEventsFor_eq, ciEventsFor_eq]
    simp only [List.mem_append]
    split_ifs <;> simp_all

theorem reviewApproved_mem_reviewEventsFor_iff (o n u v : String) :
    Event.ReviewApproved v ∈ reviewEventsFor o n u ↔ (v = u ∧ n = "APPROVED" ∧ n ≠ o) := by
  rw [reviewEventsFor_eq]
  split_ifs <;> simp_all <;> cc

theorem reviewChanges_mem_reviewEventsFor_iff (o n u v : String) :
    Event.ReviewChangesRequested v ∈ reviewEventsFor o n u ↔
      (v = u ∧ n = "CHANGES_REQUESTED" ∧ n ≠ o) := by
  rw [reviewEventsFor_eq]
  split_ifs <;> simp_all <;> cc

theorem ciPassing_mem_ciEventsFor_iff (o n u v : String) :
    Event.CIPassing v ∈ ciEventsFor o n u ↔ (v = u ∧ n = "passing" ∧ n ≠ o ∧ o ≠ "") := by
  rw [ciEventsFor_eq]
  split_ifs <;> simp_all <;> cc

theorem ciFailing_mem_ciEventsFor_iff (o n u v : String) :
    Event.CIFailing v ∈ ciEventsFor o n u ↔ (v = u ∧ n = "failing" ∧ n ≠ o ∧ o ≠ "") := by
  rw [ciEventsFor_eq]
  split_ifs <;> simp_all <;> cc

theorem reviewApproved_not_mem_ciEventsFor (o n u v : String) :
    Event.ReviewApproved v ∉ ciEventsFor o n u := by
  rw [ciEventsFor_eq]
  split_ifs <;> simp

theorem reviewChanges_not_mem_ciEventsFor (o n u v : String) :
    Event.ReviewChangesRequested v ∉ ciEventsFor o n u := by
  rw [ciEventsFor_eq]
  split_ifs <;> simp

theorem ciPassing_not_mem_reviewEventsFor (o n u v : String) :
    Event.CIPassing v ∉ reviewEventsFor o n u := by
  rw [reviewEventsFor_eq]
  split_ifs <;> simp

theorem ciFailing_not_mem_reviewEventsFor (o n u v : String) :
    Event.CIFailing v ∉ reviewEventsFor o n u := by
  rw [reviewEventsFor_eq]
  split_ifs <;> simp

theorem prEvents_approved_iff (rs cs nrs ncs : List (String × String)) (added : Finset String)
    (q : PR) (u : String) :
    Event.ReviewApproved u ∈ prEvents rs cs nrs ncs added q ↔
      (u = q.url ∧ q.url ∉ added ∧ (nrs.lookup q.url).getD "" = "APPROVED" ∧
        (nrs.lookup q.url).getD "" ≠ (rs.lookup q.url).getD "") := by
  unfold prEvents
  split_ifs with h
  · simp [h]
  · simp only [List.mem_append, reviewApproved_mem_reviewEventsFor_iff,
      reviewApproved_not_mem_ciEventsFor, or_false, h]
    simp [h]

theorem prEvents_changes_iff (rs cs nrs ncs : List (String × String)) (added : Finset String)
    (q : PR) (u : String) :
    Event.ReviewChangesRequested u ∈ prEvents rs cs nrs ncs added q ↔
      (u = q.url ∧ q.url ∉ added ∧ (nrs.lookup q.url).getD "" = "CHANGES_REQUESTED" ∧
        (nrs.lookup q.url).getD "" ≠ (rs.lookup q.url).getD "") := by
  unfold prEvents
  split_ifs with h
  · simp [h]
  · simp only [List.mem_append, reviewChanges_mem_reviewEventsFor_iff,
      reviewChanges_not_mem_ciEventsFor, or_false, h]
    simp [h]

theorem prEvents_ciPassing_iff (rs cs nrs ncs : List (String × String)) (added : Finset String)
    (q : PR) (u : String) :
    Event.CIPassing u ∈ prEvents rs cs nrs ncs added q ↔
      (u = q.url ∧ q.url ∉ added ∧ (ncs.lookup q.url).getD "" = "passing" ∧
        (ncs.lookup q.url).getD "" ≠ (cs.lookup q.url).getD "" ∧
        (cs.lookup q.url).getD "" ≠ "") := by
  unfold prEvents
  split_ifs with h
  · simp [h]
  · simp only [List.mem_append, ciPassing_mem_ciEventsFor_iff,
      ciPassing_not_mem_reviewEventsFor, false_or, h]
    simp [h]

theorem prEvents_ciFailing_iff (rs cs nrs ncs : List (String × String)) (added : Finset String)
    (q : PR) (u : String) :
    Event.CIFailing u ∈ prEvents rs cs nrs ncs added q ↔
      (u = q.url ∧ q.url ∉ added ∧ (ncs.lookup q.url).getD "" = "failing" ∧
        (ncs.lookup q.url).getD "" ≠ (cs.lookup q.url).getD "" ∧
        (cs.lookup q.url).getD "" ≠ "") := by
  unfold prEvents
  split_ifs with h
  · simp [h]
  · simp only [List.mem_append, ciFailing_mem_ciEventsFor_iff,
      ciFailing_not_mem_reviewEventsFor, false_or, h]
    simp [h]

theorem prEvents_no_newComments (rs cs nrs ncs : List (String × String)) (added : Finset String)
    (q : PR) (u : String) (d : Nat) :
    Event.NewComments u d ∉ prEvents rs cs nrs ncs added q := by
  unfold prEvents
  split_ifs with h
  · simp
  · rw [reviewEventsFor_eq, ciEventsFor_eq]
    simp only [List.mem_append]
    split_ifs <;> simp_all

theorem not_added_iff_seen (st : AppState) (prs : List PR) (pr : PR) (hmem : pr ∈ prs) :
    (pr.url ∉ urlsOf prs \ st.seen_urls) ↔ pr.url ∈ st.seen_urls := by
  simp [Finset.mem_sdiff, mem_urlsOf prs pr hmem]

theorem kindEvent_mem_iff (st : AppState) (prs : List PR) (pr : PR) (K : String → Event)
    (P : PR → Prop) (hf : st.first_fetch = false) (hnd : (prs.map PR.url).Nodup)
    (hmem : pr ∈ prs) (hkind : ∀ u, (K u).isNewComments = false)
    (hiff : ∀ (q : PR) (u : String),
      K u ∈ prEvents st.review_states st.ci_states (reviewStatesOf prs) (ciStatesOf prs)
          (urlsOf prs \ st.seen_urls) q ↔ (u = q.url ∧ P q)) :
    (K pr.url ∈ (do_fetch st prs).2 ↔ P pr) := by
  rw [do_fetch_events st prs hf]
  constructor
  · intro h
    rcases List.mem_append.1 h with h1 | h2
    · rcases List.mem_flatMap.1 h1 with ⟨q, hq, hin⟩
      rcases (hiff q pr.url).1 hin with ⟨hu, hP⟩
      have hqpr : q = pr := List.inj_on_of_nodup_map hnd hq hmem hu.symm
      exact hqpr ▸ hP
    · exfalso
      rcases List.mem_flatMap.1 h2 with ⟨item, _hitem, hin⟩
      rw [commentEvents_eq] at hin
      split_ifs at hin
      · simp only [List.mem_singleton] at hin
        have hk := hkind pr.url
        rw [hin] at hk
        simp [Event.isNewComments] at hk
      · cases hin
  · intro hP
    exact List.mem_append.2 (Or.inl (List.mem_flatMap.2 ⟨pr, hmem, (hiff pr pr.url).2 ⟨rfl, hP⟩⟩))

theorem newPR_mem_iff (st : AppState) (prs : List PR) (pr : PR)
    (hf : st.first_fetch = false) (hmem : pr ∈ prs) :
    (Event.NewPR pr.url ∈ (do_fetch st prs).2 ↔ pr.url ∉ st.seen_urls) := by
  rw [do_fetch_events st prs hf]
  constructor
  · intro h
    rcases List.mem_append.1 h with h1 | h2
    · rcases List.mem_flatMap.1 h1 with ⟨q, _hq, hin⟩
      rcases (prEvents_newPR_iff _ _ _ _ _ q pr.url).1 hin with ⟨hu, hadd⟩
      rw [Finset.mem_sdiff] at hadd
      rw [hu]
      exact hadd.2
    · exfalso
      rcases List.mem_flatMap.1 h2 with ⟨item, _, hin⟩
      rw [commentEvents_eq] at hin
      split_ifs at hin
      · simp at hin
      · cases hin
  · intro h
    refine List.mem_append.2 (Or.inl (List.mem_flatMap.2 ⟨pr, hmem, ?_⟩))
    exact (prEvents_newPR_iff _ _ _ _ _ pr pr.url).2
      ⟨rfl, Finset.mem_sdiff.2 ⟨mem_urlsOf prs pr hmem, h⟩⟩

theorem reviewApproved_mem_iff (st : AppState) (prs : List PR) (pr : PR)
    (hf : st.first_fetch = false) (hnd : (prs.map PR.url).Nodup) (hmem : pr ∈ prs) :
    (Event.ReviewApproved pr.url ∈ (do_fetch st prs).2 ↔
      (pr.url ∈ st.seen_urls ∧ pr.reviewDecision = "APPROVED" ∧
        pr.reviewDecision ≠ (st.review_states.lookup pr.url).getD "")) := by
  have hlook : (reviewStatesOf prs).lookup pr.url = some pr.reviewDecision :=
    lookup_mapAssoc_of_mem PR.reviewDecision prs pr hnd hmem
  have h := kindEvent_mem_iff st prs pr Event.ReviewApproved
    (fun q => q.url ∉ urlsOf prs \ st.seen_urls ∧
      ((reviewStatesOf prs).lookup q.url).getD "" = "APPROVED" ∧
      ((reviewStatesOf prs).lookup q.url).getD "" ≠ (st.review_states.lookup q.url).getD "")
    hf hnd hmem (fun _ => rfl)
    (fun q u => prEvents_approved_iff _ _ _ _ _ q u)
  rw [h]
  simp only [not_added_iff_seen st prs pr hmem, hlook]
  simp

theorem reviewChanges_mem_iff (st : AppState) (prs : List PR) (pr : PR)
    (hf : st.first_fetch = false) (hnd : (prs.map PR.url).Nodup) (hmem : pr ∈ prs) :
    (Event.ReviewChangesRequested pr.url ∈ (do_fetch st prs).2 ↔
      (pr.url ∈ st.seen_urls ∧ pr.reviewDecision = "CHANGES_REQUESTED" ∧
        pr.reviewDecision ≠ (st.review_states.lookup pr.url).getD "")) := by
  have hlook : (reviewStatesOf prs).lookup pr.url = some pr.reviewDecision :=
    lookup_mapAssoc_of_mem PR.reviewDecision prs pr hnd hmem
  have h := kindEvent_mem_iff st prs pr Event.ReviewChangesRequested
    (fun q => q.url ∉ urlsOf prs \ st.seen_urls ∧
      ((reviewStatesOf prs).lookup q.url).getD "" = "CHANGES_REQUESTED" ∧
      ((reviewStatesOf prs).lookup q.url).getD "" ≠ (st.review_states.lookup q.url).getD "")
    hf hnd hmem (fun _ => rfl)
    (fun q u => prEvents_changes_iff _ _ _ _ _ q u)
  rw [h]
  simp only [not_added_iff_seen st prs pr hmem, hlook]
  simp

theorem ciPassing_mem_iff (st : AppState) (prs : List PR) (pr : PR)
    (hf : st.first_fetch = false) (hnd : (prs.map PR.url).Nodup) (hmem : pr ∈ prs) :
    (Event.CIPassing pr.url ∈ (do_fetch st prs).2 ↔
      (pr.url ∈ st.seen_urls ∧ get_ci_state pr = "passing" ∧
        get_ci_state pr ≠ (st.ci_states.lookup pr.url).getD "" ∧
        (st.ci_states.lookup pr.url).getD "" ≠ "")) := by
  have hlook : (ciStatesOf prs).lookup pr.url = some (get_ci_state pr) :=
    lookup_mapAssoc_of_mem get_ci_state prs pr hnd hmem
  have h := kindEvent_mem_iff st prs pr Event.CIPassing
    (fun q => q.url ∉ urlsOf prs \ st.seen_urls ∧
      ((ciStatesOf prs).lookup q.url).getD "" = "passing" ∧
      ((ciStatesOf prs).lookup q.url).getD "" ≠ (st.ci_states.lookup q.url).getD "" ∧
      (st.ci_states.lookup q.url).getD "" ≠ "")
    hf hnd hmem (fun _ => rfl)
    (fun q u => prEvents_ciPassing_iff _ _ _ _ _ q u)
  rw [h]
  simp only [not_added_iff_seen st prs pr hmem, hlook]
  simp

theorem ciFailing_mem_iff (st : AppState) (prs : List PR) (pr : PR)
    (hf : st.first_fetch = false) (hnd : (prs.map PR.url).Nodup) (hmem : pr ∈ prs) :
    (Event.CIFailing pr.url ∈ (do_fetch st prs).2 ↔
      (pr.url ∈ st.seen_urls ∧ get_ci_state pr = "failing" ∧
        get_ci_state pr ≠ (st.ci_states.lookup pr.url).getD "" ∧
        (st.ci_states.lookup pr.url).getD "" ≠ "")) := by
  have hlook : (ciStatesOf prs).lookup pr.url = some (get_ci_state pr) :=
    lookup_mapAssoc_of_mem get_ci_state prs pr hnd hmem
  have h := kindEvent_mem_iff st prs pr Event.CIFailing
    (fun q => q.url ∉ urlsOf prs \ st.seen_urls ∧
      ((ciStatesOf prs).lookup q.url).getD "" = "failing" ∧
      ((ciStatesOf prs).lookup q.url).getD "" ≠ (st.ci_states.lookup q.url).getD "" ∧
      (st.ci_states.lookup q.url).getD "" ≠ "")
    hf hnd hmem (fun _ => rfl)
    (fun q u => prEvents_ciFailing_iff _ _ _ _ _ q u)
  rw [h]
  simp only [not_added_iff_seen st prs pr hmem, hlook]
  simp

theorem flatMap_cons_events {α : Type} (a : α) (l : List α) (f : α → List Event) :
    (a :: l).flatMap f = f a ++ l.flatMap f :=
  rfl

theorem flatMap_filter_nil {α : Type} (l : List α) (f : α → List Event) (p : Event → Bool)
    (h : ∀ x ∈ l, (f x).filter p = []) : (l.flatMap f).filter p = [] := by
  induction l with
  | nil => rfl
  | cons a l ih =>
    rw [flatMap_cons_events, List.filter_append, h a (List.mem_cons_self a l),
      ih (fun x hx => h x (List.mem_cons_of_mem a hx)), List.append_nil]

theorem flatMap_filter_unique {α : Type} (l : List α) (f : α → List Event)
    (p : Event → Bool) (x : α) (hnd : l.Nodup) (hx : x ∈ l) (hkeep : (f x).filter p = f x)
    (hdrop : ∀ y ∈ l, y ≠ x → (f y).filter p = []) :
    (l.flatMap f).filter p = f x := by
  induction l with
  | nil => cases hx
  | cons a l ih =>
    rw [flatMap_cons_events, List.filter_append]
    rcases List.mem_cons.1 hx with h | h
    · subst h
      rw [hkeep, flatMap_filter_nil l f p
          (fun y hy => hdrop y (List.mem_cons_of_mem _ hy)
            (fun hEq => absurd (hEq ▸ hy) (List.nodup_cons.1 hnd).1)),
        List.append_nil]
    · rw [hdrop a (List.mem_cons_self _ _)
          (fun hEq => absurd (hEq.symm ▸ h) (List.nodup_cons.1 hnd).1),
        List.nil_append]
      exact ih (List.nodup_cons.1 hnd).2 h
        (fun y hy hne => hdrop y (List.mem_cons_of_mem _ hy) hne)

theorem prEvents_filter_newCommentsFor (rs cs nrs ncs : List (String × String))
    (added : Finset String) (u : String) (q : PR) :
    (prEvents rs cs nrs ncs added q).filter (Event.isNewCommentsFor u) = [] := by
  rw [List.filter_eq_nil_iff]
  intro e he
  cases e with
  | NewPR v => simp [Event.isNewCommentsFor]
  | ReviewApproved v => simp [Event.isNewCommentsFor]
  | ReviewChangesRequested v => simp [Event.isNewCommentsFor]
  | CIPassing v => simp [Event.isNewCommentsFor]
  | CIFailing v => simp [Event.isNewCommentsFor]
  | NewComments v d => exact absurd he (prEvents_no_newComments rs cs nrs ncs added q v d)

theorem commentEvents_filter_keep (cc : List (String × Nat)) (prs : List PR)
    (item : String × Nat) :
    (commentEvents cc prs item).filter (Event.isNewCommentsFor item.1) =
      commentEvents cc prs item := by
  rw [commentEvents_eq]
  split_ifs <;> simp [Event.isNewCommentsFor]

theorem commentEvents_filter_drop (cc : List (String × Nat)) (prs : List PR)
    (item : String × Nat) (u : String) (hne : item.1 ≠ u) :
    (commentEvents cc prs item).filter (Event.isNewCommentsFor u) = [] := by
  rw [commentEvents_eq]
  split_ifs <;> simp [Event.isNewCommentsFor, hne]

theorem newComments_filter_eq (st : AppState) (prs : List PR) (pr : PR)
    (hf : st.first_fetch = false) (hnd : (prs.map PR.url).Nodup) (hmem : pr ∈ prs) :
    (do_fetch st prs).2.filter (Event.isNewCommentsFor pr.url) =
      (if get_comment_count pr > (st.comment_counts.lookup pr.url).getD 0
       then [Event.NewComments pr.url
         (get_comment_count pr - (st.comment_counts.lookup pr.url).getD 0)]
       else []) := by
  rw [do_fetch_events st prs hf, List.filter_append]
  rw [flatMap_filter_nil _ _ _ (fun q _ => prEvents_filter_newCommentsFor _ _ _ _ _ _ q),
    List.nil_append]
  have hx : (pr.url, get_comment_count pr) ∈ commentCountsOf prs :=
    List.mem_map_of_mem (fun p => (p.url, get_comment_count p)) hmem
  have hndItems : (commentCountsOf prs).Nodup := by
    have hfst : ((commentCountsOf prs).map Prod.fst).Nodup := by
      simpa [commentCountsOf, List.map_map, Function.comp] using hnd
    exact hfst.of_map
  rw [flatMap_filter_unique (commentCountsOf prs) _ _ (pr.url, get_comment_count pr) hndItems hx
    (commentEvents_filter_keep _ _ _)
    (fun y hy hne => by
      rcases List.mem_map.1 hy with ⟨q, hq, rfl⟩
      refine commentEvents_filter_drop _ _ _ _ ?_
      intro hEq
      have hqpr : q = pr := List.inj_on_of_nodup_map hnd hq hmem hEq
      exact hne (by rw [hqpr]))]
  rw [commentEvents_eq]
  have hfind : (prs.find? (fun p => p.url == pr.url)).isSome := by
    rw [List.find?_isSome]
    exact ⟨pr, hmem, by simp⟩
  simp [hfind]

theorem has_unseen_of_prUnseen (st : AppState) (prs : List PR) (pr : PR)
    (hf : st.first_fetch = false) (hmem : pr ∈ prs)
    (h : prUnseen st.review_states st.ci_states (reviewStatesOf prs) (ciStatesOf prs)
      (urlsOf prs \ st.seen_urls) pr = true) :
    (do_fetch st prs).1.has_unseen = true := by
  rw [do_fetch_has_unseen st prs hf]
  have hany : prs.any (prUnseen st.review_states st.ci_states (reviewStatesOf prs)
      (ciStatesOf prs) (urlsOf prs \ st.seen_urls)) = true :=
    List.any_eq_true.2 ⟨pr, hmem, h⟩
  rw [hany]
  simp

theorem mem_new_comment_urls_of (st : AppState) (prs : List PR) (pr : PR)
    (hf : st.first_fetch = false) (hmem : pr ∈ prs)
    (h : get_comment_count pr > (st.comment_counts.lookup pr.url).getD 0) :
    pr.url ∈ (do_fetch st prs).1.new_comment_urls := by
  rw [do_fetch_new_comment_urls st prs hf]
  refine Finset.mem_union_right _ ?_
  rw [List.mem_toFinset]
  refine List.mem_map.2 ⟨(pr.url, get_comment_count pr), ?_, rfl⟩
  rw [List.mem_filter]
  refine ⟨List.mem_map_of_mem (fun p => (p.url, get_comment_count p)) hmem, ?_⟩
  have hfind : (prs.find? (fun p => p.url == pr.url)).isSome := by
    rw [List.find?_isSome]
    exact ⟨pr, hmem, by simp⟩
  simp [commentUnseen, h, hfind]

theorem ciStateAux_eq (checks : List Check) (acc : String) :
    ciStateAux checks acc =
      (if checks.any isFailingCheck then "failing"
       else if checks.any isPendingCheck then "pending"
       else acc) := by
  induction checks generalizing acc with
  | nil => simp [ciStateAux]
  | cons c rest ih =>
    cases c with
    | checkRun status conclusion =>
      by_cases h1 : status = "COMPLETED"
      · by_cases h2 : conclusion ≠ "SUCCESS" ∧ conclusion ≠ "NEUTRAL" ∧ conclusion ≠ "SKIPPED"
        · simp [ciStateAux, h1, h2, isFailingCheck, isPendingCheck]
        · simp [ciStateAux, h1, h2, isFailingCheck, isPendingCheck, ih]
      · simp [ciStateAux, h1, isFailingCheck, isPendingCheck, ih]
    | statusContext state =>
      by_cases h1 : state = "PENDING"
      · simp [ciStateAux, h1, isFailingCheck, isPendingCheck, ih]
      · by_cases h2 : state = "SUCCESS"
        · simp [ciStateAux, h1, h2, isFailingCheck, isPendingCheck, ih]
        · simp [ciStateAux, h1, h2, isFailingCheck, isPendingCheck]
    | other t =>
      simp [ciStateAux, isFailingCheck, isPendingCheck, ih]

theorem get_ci_state_eq (pr : PR) :
    get_ci_state pr =
      (if pr.statusCheckRollup.any isFailingCheck then "failing"
       else if pr.statusCheckRollup.any isPendingCheck then "pending"
       else "passing") :=
  ciStateAux_eq pr.statusCheckRollup "passing"

/-! ### Claims -/

/-- Claim C1 counterexample: with an empty steady-state snapshot and one
fetched PR at URL "u" carrying two comments, "u" is in `added` (absent from
the stored seen set) and the cycle emits `NewPR` for it — yet the same cycle
also emits a `NewComments` event for "u", contradicting the claim that no
`NewComments` event is emitted for a URL in `added` regardless of its
comment count. -/
theorem claim_C1_counterexample :
    ("u" ∉ (mkState ∅ [] [] [] false).seen_urls) ∧
    (mkState ∅ [] [] [] false).first_fetch = false ∧
    Event.NewPR "u" ∈ (do_fetch (mkState ∅ [] [] [] false) [mkPR "u" "" [] 2]).2 ∧
    Event.NewComments "u" 2 ∈ (do_fetch (mkState ∅ [] [] [] false) [mkPR "u" "" [] 2]).2 := by
  decide

/-- Claim C1 (corrected): in a steady-state cycle, every PR whose URL is in
`added` gets a `NewPR` event and no review-decision or CI-state transition
event for that URL; the comment-count loop, however, runs over every fetched
URL including added ones, so an added PR whose comment count exceeds the
stored count (defaulting to 0 when absent) additionally gets a `NewComments`
event carrying the delta. -/
theorem claim_C1 (st : AppState) (prs : List PR) (pr : PR)
    (hf : st.first_fetch = false) (hnd : (prs.map PR.url).Nodup) (hmem : pr ∈ prs)
    (hadded : pr.url ∉ st.seen_urls) :
    Event.NewPR pr.url ∈ (do_fetch st prs).2 ∧
    Event.ReviewApproved pr.url ∉ (do_fetch st prs).2 ∧
    Event.ReviewChangesRequested pr.url ∉ (do_fetch st prs).2 ∧
    Event.CIPassing pr.url ∉ (do_fetch st prs).2 ∧
    Event.CIFailing pr.url ∉ (do_fetch st prs).2 ∧
    ((st.comment_counts.lookup pr.url).getD 0 < get_comment_count pr →
      Event.NewComments pr.url
        (get_comment_count pr - (st.comment_counts.lookup pr.url).getD 0) ∈
        (do_fetch st prs).2) := by
  refine ⟨(newPR_mem_iff st prs pr hf hmem).2 hadded, ?_, ?_, ?_, ?_, ?_⟩
  · intro hin
    exact hadded ((reviewApproved_mem_iff st prs pr hf hnd hmem).1 hin).1
  · intro hin
    exact hadded ((reviewChanges_mem_iff st prs pr hf hnd hmem).1 hin).1
  · intro hin
    exact hadded ((ciPassing_mem_iff st prs pr hf hnd hmem).1 hin).1
  · intro hin
    exact hadded ((ciFailing_mem_iff st prs pr hf hnd hmem).1 hin).1
  · intro hlt
    have hfilter := newComments_filter_eq st prs pr hf hnd hmem
    rw [if_pos hlt] at hfilter
    have hmemf : Event.NewComments pr.url
        (get_comment_count pr - (st.comment_counts.lookup pr.url).getD 0) ∈
        (do_fetch st prs).2.filter (Event.isNewCommentsFor pr.url) := by
      rw [hfilter]
      exact List.mem_singleton_self _
    exact List.mem_of_mem_filter hmemf

/-- Claim C1 witness: the corrected statement instantiated at the concrete
counterexample state: `NewPR` is emitted, no review event is emitted, and the
`NewComments` event with delta 2 is emitted for the added URL. -/
theorem claim_C1_witness :
    ((mkPR "u" "" [] 2).url ∉ (mkState ∅ [] [] [] false).seen_urls) ∧
    Event.NewPR "u" ∈ (do_fetch (mkState ∅ [] [] [] false) [mkPR "u" "" [] 2]).2 ∧
    Event.ReviewApproved "u" ∉ (do_fetch (mkState ∅ [] [] [] false) [mkPR "u" "" [] 2]).2 ∧
    Event.NewComments "u" 2 ∈ (do_fetch (mkState ∅ [] [] [] false) [mkPR "u" "" [] 2]).2 := by
  have h := claim_C1 (mkState ∅ [] [] [] false) [mkPR "u" "" [] 2] (mkPR "u" "" [] 2)
    rfl (by decide) (by decide) (by decide)
  exact ⟨by decide, h.1, h.2.1, h.2.2.2.2.2 (by decide)⟩

/-- Claim C2 counterexample: `save_state` is not an atomic replace — starting
from a file system where `STATE_PATH` holds "old" and interrupting after the
first operation (the truncating open) leaves `STATE_PATH` holding the empty
string, which is neither the previously persisted content nor the final
content "new". -/
theorem claim_C2_counterexample : ¬ atomicReplaceSave (save_state_ops "new") := by
  intro h
  rcases h (fun p => if p = STATE_PATH then some "old" else none) 1 with hc | hc <;>
    simp [save_state_ops, runOps, applyOp, STATE_PATH] at hc

/-- Claim C2 (corrected): `save_state` opens `STATE_PATH` in truncating write
mode and writes the serialized snapshot directly to it; no rename (and no
temporary path) is involved, the completed run stores the new content, and an
interruption right after the truncating open leaves an empty file at
`STATE_PATH` in place of the previously persisted snapshot. -/
theorem claim_C2 (fs : Fs) (content : String) :
    ((save_state_ops content).all (fun op => ! op.isRenameInto) = true) ∧
    runOps fs (save_state_ops content) STATE_PATH = some content ∧
    runOps fs ((save_state_ops content).take 1) STATE_PATH = some "" := by
  refine ⟨rfl, ?_, ?_⟩ <;> simp [save_state_ops, runOps, applyOp]

/-- Claim C3 (confirmed): the CI aggregate scans the checks starting from
passing: any failing-class check (a completed check-run with conclusion
outside SUCCESS, NEUTRAL, SKIPPED, or a status-context in a state other than
SUCCESS and PENDING) makes the aggregate failing; otherwise any pending-class
check (an incomplete check-run or a PENDING status-context) makes it pending;
otherwise it is passing. In particular [pending, failing] in either order is
failing, [pending, passing] in either order is pending, and [] is passing. -/
theorem claim_C3 :
    (∀ pr : PR, get_ci_state pr =
      (if pr.statusCheckRollup.any isFailingCheck then "failing"
       else if pr.statusCheckRollup.any isPendingCheck then "pending"
       else "passing")) ∧
    get_ci_state (mkPR "u" "" [pendingCheck, failingCheck] 0) = "failing" ∧
    get_ci_state (mkPR "u" "" [failingCheck, pendingCheck] 0) = "failing" ∧
    get_ci_state (mkPR "u" "" [pendingCheck, passingCheck] 0) = "pending" ∧
    get_ci_state (mkPR "u" "" [passingCheck, pendingCheck] 0) = "pending" ∧
    get_ci_state (mkPR "u" "" [] 0) = "passing" ∧
    get_ci_state (mkPR "u" "" [Check.statusContext "PENDING", passingCheck] 0) = "pending" ∧
    get_ci_state (mkPR "u" "" [Check.statusContext "ERROR", pendingCheck] 0) = "failing" :=
  ⟨get_ci_state_eq, by decide, by decide, by decide, by decide, by decide, by decide, by decide⟩

/-- Claim C4 (confirmed): a cycle with the baseline flag set emits no events,
records every observed URL into the seen set, and stores every comment
count, review decision and CI state, clearing the baseline flag. -/
theorem claim_C4 (st : AppState) (prs : List PR) (h : st.first_fetch = true) :
    (do_fetch st prs).2 = [] ∧
    (do_fetch st prs).1.seen_urls = urlsOf prs ∧
    (do_fetch st prs).1.comment_counts = commentCountsOf prs ∧
    (do_fetch st prs).1.review_states = reviewStatesOf prs ∧
    (do_fetch st prs).1.ci_states = ciStatesOf prs ∧
    (do_fetch st prs).1.first_fetch = false := by
  have hstate := do_fetch_state st prs
  refine ⟨?_, hstate.1, hstate.2.1, hstate.2.2.1, hstate.2.2.2.1, hstate.2.2.2.2⟩
  simp [do_fetch, h]

/-- Claim C4 witness: the baseline cycle on a non-empty PR list emits no
events and seeds the seen set with the fetched URL. -/
theorem claim_C4_witness :
    ((mkState ∅ [] [] [] true).first_fetch = true) ∧
    ((do_fetch (mkState ∅ [] [] [] true) [mkPR "u" "APPROVED" [passingCheck] 2]).2 = []) ∧
    ((do_fetch (mkState ∅ [] [] [] true) [mkPR "u" "APPROVED" [passingCheck] 2]).1.seen_urls =
      urlsOf [mkPR "u" "APPROVED" [passingCheck] 2]) := by
  have h := claim_C4 (mkState ∅ [] [] [] true) [mkPR "u" "APPROVED" [passingCheck] 2] rfl
  exact ⟨rfl, h.1, h.2.1⟩

/-- Claim C5 (confirmed): after every cycle the stored seen set equals
exactly the fetched URL set — `(seen ∩ currentURLs) ∪ currentURLs` collapses
to `currentURLs` — and all four mappings are keyed exactly by the current
URLs, so a URL absent from a fetch is dropped from all four; if it appears
again in a later cycle it is in `added` again and re-notified with NewPR. -/
theorem claim_C5 (st : AppState) (prs1 prs2 : List PR) (u : String) :
    ((do_fetch st prs1).1.seen_urls = urlsOf prs1) ∧
    ((do_fetch st prs1).1.comment_counts.map Prod.fst = prs1.map PR.url) ∧
    ((do_fetch st prs1).1.review_states.map Prod.fst = prs1.map PR.url) ∧
    ((do_fetch st prs1).1.ci_states.map Prod.fst = prs1.map PR.url) ∧
    (u ∉ prs1.map PR.url → (∃ pr ∈ prs2, pr.url = u) →
      Event.NewPR u ∈ (do_fetch (do_fetch st prs1).1 prs2).2) := by
  obtain ⟨h1, h2, h3, h4, h5⟩ := do_fetch_state st prs1
  refine ⟨h1, ?_, ?_, ?_, ?_⟩
  · rw [h2]; simp [commentCountsOf]
  · rw [h3]; simp [reviewStatesOf]
  · rw [h4]; simp [ciStatesOf]
  · intro hu hex
    obtain ⟨pr, hpr, hpru⟩ := hex
    subst hpru
    refine (newPR_mem_iff (do_fetch st prs1).1 prs2 pr h5 hpr).2 ?_
    rw [h1]
    simpa [urlsOf] using hu

/-- Claim C5 witness: URL "u" is absent from the first fetch and present in
the second, and the second cycle emits NewPR for it. -/
theorem claim_C5_witness :
    ("u" ∉ [mkPR "a" "" [] 0].map PR.url) ∧
    Event.NewPR "u" ∈
      (do_fetch (do_fetch (mkState ∅ [] [] [] false) [mkPR "a" "" [] 0]).1
        [mkPR "u" "" [] 0]).2 :=
  ⟨by decide,
    (claim_C5 (mkState ∅ [] [] [] false) [mkPR "a" "" [] 0] [mkPR "u" "" [] 0] "u").2.2.2.2
      (by decide) ⟨mkPR "u" "" [] 0, List.mem_singleton_self _, rfl⟩⟩

/-- Claim C6 (confirmed): for a PR that is not in `added` (its URL is in the
stored seen set), a ReviewApproved or ReviewChangesRequested event is emitted
iff the new decision is APPROVED or CHANGES_REQUESTED respectively and
differs from the stored decision (both values are non-empty, so the
non-emptiness condition is subsumed); the stored review state is replaced by
the new decision in every case; concretely "" → APPROVED emits
ReviewApproved, APPROVED → APPROVED emits nothing, and CHANGES_REQUESTED →
APPROVED emits ReviewApproved. -/
theorem claim_C6 (st : AppState) (prs : List PR) (pr : PR)
    (hf : st.first_fetch = false) (hnd : (prs.map PR.url).Nodup) (hmem : pr ∈ prs)
    (hseen : pr.url ∈ st.seen_urls) :
    (Event.ReviewApproved pr.url ∈ (do_fetch st prs).2 ↔
      (pr.reviewDecision = "APPROVED" ∧
        pr.reviewDecision ≠ (st.review_states.lookup pr.url).getD "")) ∧
    (Event.ReviewChangesRequested pr.url ∈ (do_fetch st prs).2 ↔
      (pr.reviewDecision = "CHANGES_REQUESTED" ∧
        pr.reviewDecision ≠ (st.review_states.lookup pr.url).getD "")) ∧
    ((do_fetch st prs).1.review_states.lookup pr.url = some pr.reviewDecision) ∧
    (Event.ReviewApproved "u" ∈
      (do_fetch (mkState {"u"} [] [("u", "")] [] false) [mkPR "u" "APPROVED" [] 0]).2) ∧
    ((do_fetch (mkState {"u"} [] [("u", "APPROVED")] [] false)
      [mkPR "u" "APPROVED" [] 0]).2 = []) ∧
    (Event.ReviewApproved "u" ∈
      (do_fetch (mkState {"u"} [] [("u", "CHANGES_REQUESTED")] [] false)
        [mkPR "u" "APPROVED" [] 0]).2) := by
  refine ⟨?_, ?_, ?_, by decide, by decide, by decide⟩
  · rw [reviewApproved_mem_iff st prs pr hf hnd hmem]
    simp [hseen]
  · rw [reviewChanges_mem_iff st prs pr hf hnd hmem]
    simp [hseen]
  · rw [(do_fetch_state st prs).2.2.1]
    exact lookup_mapAssoc_of_mem PR.reviewDecision prs pr hnd hmem

/-- Claim C6 witness: the transition "" → APPROVED on a seen PR emits
ReviewApproved. -/
theorem claim_C6_witness :
    ((mkPR "u" "APPROVED" [] 0).url ∈ (mkState {"u"} [] [("u", "")] [] false).seen_urls) ∧
    Event.ReviewApproved "u" ∈
      (do_fetch (mkState {"u"} [] [("u", "")] [] false) [mkPR "u" "APPROVED" [] 0]).2 :=
  ⟨by decide,
    (claim_C6 (mkState {"u"} [] [("u", "")] [] false) [mkPR "u" "APPROVED" [] 0]
        (mkPR "u" "APPROVED" [] 0) rfl (by decide) (by decide) (by decide)).1.mpr
      (by decide)⟩

/-- Claim C7 (confirmed): for a PR that is not in `added`, a CI event is
emitted only when a non-empty stored CI state exists and differs from the new
aggregate, and only for new aggregates passing (CIPassing) and failing
(CIFailing); the stored CI state is replaced by the new aggregate in every
case. Concretely: the first time CI data appears (stored state empty) no
event is emitted, and a transition to pending is silent. -/
theorem claim_C7 (st : AppState) (prs : List PR) (pr : PR)
    (hf : st.first_fetch = false) (hnd : (prs.map PR.url).Nodup) (hmem : pr ∈ prs)
    (hseen : pr.url ∈ st.seen_urls) :
    (Event.CIPassing pr.url ∈ (do_fetch st prs).2 ↔
      ((st.ci_states.lookup pr.url).getD "" ≠ "" ∧ get_ci_state pr = "passing" ∧
        get_ci_state pr ≠ (st.ci_states.lookup pr.url).getD "")) ∧
    (Event.CIFailing pr.url ∈ (do_fetch st prs).2 ↔
      ((st.ci_states.lookup pr.url).getD "" ≠ "" ∧ get_ci_state pr = "failing" ∧
        get_ci_state pr ≠ (st.ci_states.lookup pr.url).getD "")) ∧
    ((do_fetch st prs).1.ci_states.lookup pr.url = some (get_ci_state pr)) ∧
    ((do_fetch (mkState {"u"} [] [] [] false) [mkPR "u" "" [passingCheck] 0]).2 = []) ∧
    ((do_fetch (mkState {"u"} [] [] [("u", "passing")] false)
      [mkPR "u" "" [pendingCheck] 0]).2 = []) := by
  refine ⟨?_, ?_, ?_, by decide, by decide⟩
  · rw [ciPassing_mem_iff st prs pr hf hnd hmem]
    simp only [hseen, true_and]
    tauto
  · rw [ciFailing_mem_iff st prs pr hf hnd hmem]
    simp only [hseen, true_and]
    tauto
  · rw [(do_fetch_state st prs).2.2.2.1]
    exact lookup_mapAssoc_of_mem get_ci_state prs pr hnd hmem

/-- Claim C7 witness: the transition pending → passing on a seen PR emits
CIPassing. -/
theorem claim_C7_witness :
    ((mkPR "u" "" [passingCheck] 0).url ∈
      (mkState {"u"} [] [] [("u", "pending")] false).seen_urls) ∧
    Event.CIPassing "u" ∈
      (do_fetch (mkState {"u"} [] [] [("u", "pending")] false) [mkPR "u" "" [passingCheck] 0]).2 :=
  ⟨by decide,
    (claim_C7 (mkState {"u"} [] [] [("u", "pending")] false) [mkPR "u" "" [passingCheck] 0]
        (mkPR "u" "" [passingCheck] 0) rfl (by decide) (by decide) (by decide)).1.mpr
      (by decide)⟩

/-- Claim C8 (confirmed): for every currently open PR, with delta computed
against the stored count (defaulting to 0), a positive delta yields exactly
one NewComments event carrying that delta (the filtered event list is that
singleton) and marks the URL in the new-comments UnseenMarkers set; a
non-positive delta yields no NewComments event for that URL. Concretely:
3 → 5 gives one event with delta 2, 5 → 5 gives none, 5 → 3 gives none. -/
theorem claim_C8 (st : AppState) (prs : List PR) (pr : PR)
    (hf : st.first_fetch = false) (hnd : (prs.map PR.url).Nodup) (hmem : pr ∈ prs) :
    ((do_fetch st prs).2.filter (Event.isNewCommentsFor pr.url) =
      (if get_comment_count pr > (st.comment_counts.lookup pr.url).getD 0
       then [Event.NewComments pr.url
         (get_comment_count pr - (st.comment_counts.lookup pr.url).getD 0)]
       else [])) ∧
    (get_comment_count pr > (st.comment_counts.lookup pr.url).getD 0 →
      pr.url ∈ (do_fetch st prs).1.new_comment_urls) ∧
    ((do_fetch (mkState {"u"} [("u", 3)] [] [] false) [mkPR "u" "" [] 5]).2 =
      [Event.NewComments "u" 2]) ∧
    ((do_fetch (mkState {"u"} [("u", 5)] [] [] false) [mkPR "u" "" [] 5]).2 = []) ∧
    ((do_fetch (mkState {"u"} [("u", 5)] [] [] false) [mkPR "u" "" [] 3]).2 = []) :=
  ⟨newComments_filter_eq st prs pr hf hnd hmem,
    fun h => mem_new_comment_urls_of st prs pr hf hmem h,
    by decide, by decide, by decide⟩

/-- Claim C8 witness: stored count 3, new count 5: the NewComments events for
the URL are exactly one event with delta 2. -/
theorem claim_C8_witness :
    (([mkPR "u" "" [] 5].map PR.url).Nodup) ∧
    ((do_fetch (mkState {"u"} [("u", 3)] [] [] false) [mkPR "u" "" [] 5]).2.filter
      (Event.isNewCommentsFor "u") = [Event.NewComments "u" 2]) := by
  have h := (claim_C8 (mkState {"u"} [("u", 3)] [] [] false) [mkPR "u" "" [] 5]
    (mkPR "u" "" [] 5) rfl (by decide) (by decide)).1
  exact ⟨by decide, h.trans (by decide)⟩

/-- Claim C9 (confirmed): reconciliation is idempotent over unchanged input:
for every starting state, running a cycle on a PR list and then a second
cycle on the identical list produces zero events on the second cycle. -/
theorem claim_C9 (st : AppState) (prs : List PR) (hnd : (prs.map PR.url).Nodup) :
    (do_fetch (do_fetch st prs).1 prs).2 = [] := by
  obtain ⟨h1, h2, h3, h4, h5⟩ := do_fetch_state st prs
  rw [do_fetch_events (do_fetch st prs).1 prs h5]
  have hloop1 : ∀ q ∈ prs,
      prEvents (do_fetch st prs).1.review_states (do_fetch st prs).1.ci_states
        (reviewStatesOf prs) (ciStatesOf prs)
        (urlsOf prs \ (do_fetch st prs).1.seen_urls) q = [] := by
    intro q hq
    have hrs : (do_fetch st prs).1.review_states.lookup q.url = some q.reviewDecision := by
      rw [h3]; exact lookup_mapAssoc_of_mem PR.reviewDecision prs q hnd hq
    have hnrs : (reviewStatesOf prs).lookup q.url = some q.reviewDecision :=
      lookup_mapAssoc_of_mem PR.reviewDecision prs q hnd hq
    have hcs : (do_fetch st prs).1.ci_states.lookup q.url = some (get_ci_state q) := by
      rw [h4]; exact lookup_mapAssoc_of_mem get_ci_state prs q hnd hq
    have hncs : (ciStatesOf prs).lookup q.url = some (get_ci_state q) :=
      lookup_mapAssoc_of_mem get_ci_state prs q hnd hq
    have hadded : urlsOf prs \ (do_fetch st prs).1.seen_urls = ∅ := by
      rw [h1]; exact Finset.sdiff_self _
    rw [hadded]
    simp [prEvents, hrs, hnrs, hcs, hncs, reviewEventsFor_eq, ciEventsFor_eq]
  have hloop2 : ∀ item ∈ commentCountsOf prs,
      commentEvents (do_fetch st prs).1.comment_counts prs item = [] := by
    intro item hitem
    rcases List.mem_map.1 hitem with ⟨q, hq, rfl⟩
    have hcc : (do_fetch st prs).1.comment_counts.lookup q.url =
        some (get_comment_count q) := by
      rw [h2]; exact lookup_mapAssoc_of_mem get_comment_count prs q hnd hq
    rw [commentEvents_eq]
    simp [hcc]
  rw [List.flatMap_eq_nil_iff.2 hloop1, List.flatMap_eq_nil_iff.2 hloop2]
  rfl

/-- Claim C9 witness: a second cycle on the same singleton PR list emits
nothing. -/
theorem claim_C9_witness :
    (([mkPR "u" "" [] 2].map PR.url).Nodup) ∧
    (do_fetch (do_fetch (mkState ∅ [] [] [] false) [mkPR "u" "" [] 2]).1
      [mkPR "u" "" [] 2]).2 = [] :=
  ⟨by decide, claim_C9 (mkState ∅ [] [] [] false) [mkPR "u" "" [] 2] (by decide)⟩

/-- Claim C10 (confirmed): a silent transition still turns the badge on — for
a PR that is not in `added`, a review-decision change to any non-empty value
other than APPROVED and CHANGES_REQUESTED, and likewise a CI-state change
from a non-empty stored value to pending, set the overall has-unseen flag
even though no notification event is emitted for that URL. -/
theorem claim_C10 (st : AppState) (prs : List PR) (pr : PR)
    (hf : st.first_fetch = false) (hnd : (prs.map PR.url).Nodup) (hmem : pr ∈ prs)
    (hseen : pr.url ∈ st.seen_urls) :
    ((pr.reviewDecision ≠ (st.review_states.lookup pr.url).getD "" ∧ pr.reviewDecision ≠ "" ∧
      pr.reviewDecision ≠ "APPROVED" ∧ pr.reviewDecision ≠ "CHANGES_REQUESTED") →
      ((do_fetch st prs).1.has_unseen = true ∧
       Event.ReviewApproved pr.url ∉ (do_fetch st prs).2 ∧
       Event.ReviewChangesRequested pr.url ∉ (do_fetch st prs).2)) ∧
    (((st.ci_states.lookup pr.url).getD "" ≠ "" ∧ get_ci_state pr = "pending" ∧
      get_ci_state pr ≠ (st.ci_states.lookup pr.url).getD "") →
      ((do_fetch st prs).1.has_unseen = true ∧
       Event.CIPassing pr.url ∉ (do_fetch st prs).2 ∧
       Event.CIFailing pr.url ∉ (do_fetch st prs).2)) := by
  have hlookR : (reviewStatesOf prs).lookup pr.url = some pr.reviewDecision :=
    lookup_mapAssoc_of_mem PR.reviewDecision prs pr hnd hmem
  have hlookC : (ciStatesOf prs).lookup pr.url = some (get_ci_state pr) :=
    lookup_mapAssoc_of_mem get_ci_state prs pr hnd hmem
  have hna : pr.url ∉ urlsOf prs \ st.seen_urls := (not_added_iff_seen st prs pr hmem).2 hseen
  constructor
  · rintro ⟨hdiff, hne, hap, hcr⟩
    refine ⟨?_, ?_, ?_⟩
    · apply has_unseen_of_prUnseen st prs pr hf hmem
      unfold prUnseen
      rw [if_neg hna]
      simp only [hlookR, Option.getD_some, Bool.or_eq_true, decide_eq_true_eq]
      exact Or.inl ⟨hdiff, hne⟩
    · intro hin
      exact hap ((reviewApproved_mem_iff st prs pr hf hnd hmem).1 hin).2.1
    · intro hin
      exact hcr ((reviewChanges_mem_iff st prs pr hf hnd hmem).1 hin).2.1
  · rintro ⟨hone, hpend, hdiff⟩
    refine ⟨?_, ?_, ?_⟩
    · apply has_unseen_of_prUnseen st prs pr hf hmem
      unfold prUnseen
      rw [if_neg hna]
      simp only [hlookC, Option.getD_some, Bool.or_eq_true, decide_eq_true_eq]
      exact Or.inr ⟨hdiff, hone⟩
    · intro hin
      have hps := ((ciPassing_mem_iff st prs pr hf hnd hmem).1 hin).2.1
      rw [hpend] at hps
      simp at hps
    · intro hin
      have hfl := ((ciFailing_mem_iff st prs pr hf hnd hmem).1 hin).2.1
      rw [hpend] at hfl
      simp at hfl

/-- Claim C10 witness: a seen PR whose decision changes "" → REVIEW_REQUIRED
and whose CI state changes passing → pending turns the badge on while
emitting no review or CI event. -/
theorem claim_C10_witness :
    ((mkPR "u" "REVIEW_REQUIRED" [pendingCheck] 0).url ∈
      (mkState {"u"} [] [("u", "")] [("u", "passing")] false).seen_urls) ∧
    ((do_fetch (mkState {"u"} [] [("u", "")] [("u", "passing")] false)
      [mkPR "u" "REVIEW_REQUIRED" [pendingCheck] 0]).1.has_unseen = true) ∧
    (Event.CIPassing "u" ∉ (do_fetch (mkState {"u"} [] [("u", "")] [("u", "passing")] false)
      [mkPR "u" "REVIEW_REQUIRED" [pendingCheck] 0]).2) := by
  have h := claim_C10 (mkState {"u"} [] [("u", "")] [("u", "passing")] false)
    [mkPR "u" "REVIEW_REQUIRED" [pendingCheck] 0] (mkPR "u" "REVIEW_REQUIRED" [pendingCheck] 0)
    rfl (by decide) (by decide) (by decide)
  exact ⟨by decide, (h.1 (by decide)).1, (h.2 (by decide)).2.1⟩
